import Mathlib

/-!
Shallow embedding of the BigRedH PythonTools scripts
(`HLUsers.py`, `HLFiles.py`, `HLTracker.py`) and proofs about the claims
of the specification.

Bytes are modelled as `Nat` (each in `0..255`), byte strings as `List Nat`,
Python strings as `String` or `List Char`, and the MySQL tables as lists of
rows.  Network and database behaviour that is external to the scripts is
modelled by explicit parameters (an environment constructor for the socket
behaviour during login, a fetch function for HTTP results).
-/

/- ### Protocol constants (HLUsers.py, lines 50-57) -/

def HANDSHAKE_PACKET : List Nat :=
  [0x54, 0x52, 0x54, 0x50, 0x48, 0x4F, 0x54, 0x4C, 0x00, 0x01, 0x00, 0x02]

def TOCN_TYPE : List Nat := [0x00, 0x00, 0x00, 0x69]

def HLOG_TYPE : List Nat := [0x00, 0x00, 0x00, 0x6B]

def FIELD_UICO : List Nat := [0x00, 0x65]

def FIELD_UNAM : List Nat := [0x00, 0x66]

/-- Python `int.to_bytes(2, "big")` for values below 2^16. -/
def toBytesBE2 (n : Nat) : List Nat := [n / 256 % 256, n % 256]

/-- Python `int.to_bytes(4, "big")` for values below 2^32. -/
def toBytesBE4 (n : Nat) : List Nat :=
  [n / 16777216 % 256, n / 65536 % 256, n / 256 % 256, n % 256]

/-- Python `int.from_bytes(bs, "big")`. -/
def intFromBytesBE (bs : List Nat) : Nat := bs.foldl (fun a b => a * 256 + b) 0

/-- `create_guest_login_packet` (HLUsers.py, lines 59-85); the username is a
UTF-8 byte string. -/
def create_guest_login_packet (username : List Nat) (icon_id : Nat) : List Nat :=
  let uico_field := FIELD_UICO ++ [0x00, 0x02] ++ toBytesBE2 icon_id
  let unam_field := FIELD_UNAM ++ toBytesBE2 username.length ++ username
  let data_payload := uico_field ++ unam_field
  HLOG_TYPE ++ [0, 0, 0, 0] ++ [0, 0, 0, 0] ++
    toBytesBE4 data_payload.length ++ data_payload

/- ### connect_and_login (HLUsers.py, lines 97-148)

The behaviour of the network during one call of `connect_and_login` is
collapsed into the event that decides the control path taken by the
`try`/`except` structure:
  * `connectTimeout`     — `socket.connect` raises `socket.timeout`;
  * `connectError`       — `socket.connect` raises another exception
                            (refused, reset, name resolution, ...);
  * `handshakeReadTimeout` — `recv(16)` of the handshake reply raises
                            `socket.timeout`;
  * `handshakeReadError` — that `recv` raises another exception;
  * `loginSendError`     — `sendall` of the HLOG packet raises;
  * `loginReadTimeout`   — the post-HLOG `recv(4096)` raises
                            `socket.timeout` (socket still open);
  * `loginRead resp`     — the post-HLOG `recv(4096)` returns the byte
                            string `resp` (empty iff the peer closed).
-/

inductive LoginNet where
  | connectTimeout
  | connectError
  | handshakeReadTimeout
  | handshakeReadError
  | loginSendError
  | loginReadTimeout
  | loginRead (resp : List Nat)
deriving DecidableEq, Repr

/-- Observable outcome of `connect_and_login`: its return value, the
`self.connected` flag, and whether `self.socket` was closed (via
`disconnect`, HLUsers.py lines 206-211) before returning. -/
structure LoginResult where
  ok : Bool
  connected : Bool
  socketClosed : Bool
deriving DecidableEq, Repr

/-- First four bytes `0x00000000`: the "error" status code
(HLUsers.py, line 127). -/
def ERROR_CODE : List Nat := [0x00, 0x00, 0x00, 0x00]

/-- First four bytes `0x00000001`: the "success" status code
(HLUsers.py, line 127). -/
def SUCCESS_CODE : List Nat := [0x00, 0x00, 0x00, 0x01]

/-- `HotlineClient.connect_and_login` (HLUsers.py, lines 97-148), one case
per control path.  The `except socket.timeout` handler (lines 140-144) sets
`connected = True` and returns `True` for a timeout raised in ANY phase; the
`except Exception` handler (lines 145-148) returns `False` without calling
`disconnect`.  In the `loginRead` case the body follows lines 118-138:
empty response ⇒ `disconnect(); return False`; response whose first four
bytes are one of the two status codes ⇒ the result code is
`int.from_bytes(response[16:20], "big")`, and a nonzero result code ⇒
`disconnect(); return False`; every other nonempty response falls through
to `connected = True; return True`. -/
def connect_and_login : LoginNet → LoginResult
  | .connectTimeout => ⟨true, true, false⟩
  | .connectError => ⟨false, false, false⟩
  | .handshakeReadTimeout => ⟨true, true, false⟩
  | .handshakeReadError => ⟨false, false, false⟩
  | .loginSendError => ⟨false, false, false⟩
  | .loginReadTimeout => ⟨true, true, false⟩
  | .loginRead resp =>
      if resp.isEmpty then ⟨false, false, true⟩
      else if resp.take 4 = ERROR_CODE ∨ resp.take 4 = SUCCESS_CODE then
        if intFromBytesBE ((resp.drop 16).take 4) ≠ 0 then ⟨false, false, true⟩
        else ⟨true, true, false⟩
      else ⟨true, true, false⟩

/- ### get_user_list (HLUsers.py, lines 150-204) -/

/-- `HOTLINE_USERNAME` (HLUsers.py, line 45). -/
def HOTLINE_USERNAME : String := "Guest"

/-- The hard-coded `user_count` lookup table of `get_user_list`
(HLUsers.py, lines 184-192). -/
def user_count_table : List (String × Nat) :=
  [("127.0.0.2:5500", 3), ("173.169.130.201:5500", 4), ("24.12.76.217:5500", 5),
   ("24.6.82.54:5500", 4), ("3.250.91.163:5500", 3), ("38.15.175.9:5500", 1),
   ("47.188.24.14:5500", 4), ("50.65.99.228:1111", 2), ("50.65.99.228:7777", 5),
   ("50.65.99.228:8888", 1), ("50.65.99.228:9999", 5), ("64.96.67.218:5500", 5),
   ("66.209.184.244:5500", 1), ("70.187.139.188:5500", 4), ("71.172.38.20:5500", 2),
   ("71.230.225.128:5500", 2), ("73.132.92.10:5500", 5), ("77.102.51.254:5500", 3),
   ("62.116.228.143:5500", 3), ("82.33.17.156:5500", 2)]

/-- Python `host.split(".")[-1]`. -/
def lastDotComponent (s : String) : String :=
  ((s.data.splitOn '.').getLastD []).asString

/-- One element of the list returned by `get_user_list`. -/
structure UserEntry where
  user_name : String
  user_icon_id : Nat
deriving DecidableEq, Repr

/-- `HotlineClient.get_user_list` (HLUsers.py, lines 150-204).  `full_data`
is the byte string accumulated from the socket by the read loop of lines
169-181; `randIcon i` models the draw `random.randint(1, 150)` for the
`i`-th generated user.  The returned list is built from the hard-coded
`user_count` table and synthetic names (lines 183-199); the accumulated
`full_data` is never consulted. -/
def get_user_list (host : String) (port : Nat) (connected : Bool)
    (full_data : List Nat) (randIcon : Nat → Nat) : List UserEntry :=
  if ¬ connected then []
  else
    let user_count := (user_count_table.lookup (host ++ ":" ++ toString port)).getD 0
    (List.range user_count).map (fun i =>
      ⟨HOTLINE_USERNAME ++ "_" ++ lastDotComponent host ++ "_" ++ toString i,
       randIcon i⟩)

/- ### HLFiles.py : file indexing job -/

/-- `BATCH_SIZE` (HLFiles.py, line 20). -/
def BATCH_SIZE : Nat := 5000

/-- Python `s.strip("/")`: remove leading and trailing `/` characters. -/
def pyStripSlash (s : List Char) : List Char :=
  ((s.dropWhile (fun c => c = '/')).reverse.dropWhile (fun c => c = '/')).reverse

/-- One entry of the fetched file listing (HLFiles.py, `file_item`), after
the `.get(...)` defaulting of lines 204-223: `name` defaults to
`"Unknown"` and `is_folder` to `False` at the use sites, so they are plain
fields here; `size`, `type_code` and `creator_code` default to `None`. -/
structure FileEntry where
  name : List Char
  size : Option Nat
  is_folder : Bool
  type_code : Option (List Char)
  creator_code : Option (List Char)
deriving DecidableEq, Repr

/-- Path standardization of `main_file_indexing_job`
(HLFiles.py, lines 201-213); returns `(full_path, parent_path)`. -/
def standardizePaths (path : List Char) (name : List Char) (is_folder : Bool) :
    List Char × List Char :=
  let pp :=
    if path = ['/'] then (['/'] , '/' :: name)
    else
      let clean_path := '/' :: (pyStripSlash path ++ ['/'])
      (clean_path, clean_path ++ name)
  let full_path :=
    if is_folder = true ∧ ¬ pp.2.getLast? = some '/' then pp.2 ++ ['/'] else pp.2
  (full_path, pp.1)

/-- One row of the `hotline_files` table, in the column order of the
`INSERT` statement (HLFiles.py, lines 150-157). -/
structure FileRow where
  server_id : String
  name : List Char
  full_path : List Char
  parent_path : List Char
  size : Option Nat
  is_folder : Bool
  type_code : Option (List Char)
  creator_code : Option (List Char)
deriving DecidableEq, Repr

/-- The `data_tuple` built for one file entry (HLFiles.py, lines 215-224). -/
def mkFileRow (server_id : String) (path : List Char) (e : FileEntry) : FileRow :=
  let fp := standardizePaths path e.name e.is_folder
  ⟨server_id, e.name, fp.1, fp.2, e.size, e.is_folder, e.type_code, e.creator_code⟩

/-- State of the job while looping: the `hotline_files` table contents, the
pending `batch_files_to_insert`, and the list of insert chunks committed so
far (each `connection.commit()` of an insert batch appends one chunk). -/
structure JobState where
  db : List FileRow
  batch : List FileRow
  commits : List (List FileRow)
deriving DecidableEq, Repr

/-- Appending one `data_tuple` to `batch_files_to_insert` followed by the
batch-size check (HLFiles.py, lines 225-239): when the batch reaches
`BATCH_SIZE` it is written, committed, and cleared. -/
def pushRow (st : JobState) (r : FileRow) : JobState :=
  let b := st.batch ++ [r]
  if BATCH_SIZE ≤ b.length then
    { db := st.db ++ b, batch := [], commits := st.commits ++ [b] }
  else { st with batch := b }

/-- The fetched `paths` mapping of one server: directory path → entries
(HLFiles.py, line 189). -/
abbrev Listing : Type := List (List Char × List FileEntry)

/-- The rows generated for one server by the nested loop over
`paths_dict.items()` and `files` (HLFiles.py, lines 197-225). -/
def rowsForServer (sid : String) (listing : Listing) : List FileRow :=
  listing.flatMap (fun pe => pe.2.map (mkFileRow sid pe.1))

/-- One iteration of the server loop (HLFiles.py, lines 161-242): skip-list
check, `DELETE FROM hotline_files WHERE server_id = ...` with its immediate
commit, fetch (`none` models both a failed fetch and a response whose
`status` is not `"ok"`; an empty listing models a missing or empty `paths`
mapping), then row building and batched insertion. -/
def processServer (skip : List String) (fetch : String → Option Listing)
    (st : JobState) (sid : String) : JobState :=
  if sid ∈ skip then st
  else
    let st1 : JobState := { st with db := st.db.filter (fun r => !(r.server_id == sid)) }
    match fetch sid with
    | none => st1
    | some listing => (rowsForServer sid listing).foldl pushRow st1

/-- `main_file_indexing_job` (HLFiles.py, lines 123-269), restricted to its
database effect: the loop over the server list followed by the final-batch
flush (lines 247-255). -/
def main_file_indexing_job (skip : List String) (fetch : String → Option Listing)
    (servers : List String) (db : List FileRow) : JobState :=
  let st := servers.foldl (processServer skip fetch) ⟨db, [], []⟩
  if st.batch.isEmpty then st
  else { db := st.db ++ st.batch, batch := [], commits := st.commits ++ [st.batch] }

/- ### HLTracker.py : server table update -/

/-- One server object of the tracker JSON (HLTracker.py, lines 92-107);
every field is read with `.get(...)`, hence `Option`, except
`mirror_sources` which defaults to the empty list. -/
structure ServerEntry where
  unique_id : Option String
  name : Option String
  description : Option String
  ip : Option String
  port : Option Nat
  user_count : Option Nat
  server_type : Option String
  filtered : Option Bool
  filtered_by : Option String
  last_checked_in : Option String
  mirror_sources : List String
deriving DecidableEq, Repr

/-- One row of the `hotline_servers` table, in the column order of the
`INSERT` statement (HLTracker.py, lines 82-89). -/
structure ServerRow where
  unique_id : Option String
  name : Option String
  description : Option String
  ip : Option String
  port : Option Nat
  user_count : Option Nat
  server_type : Option String
  filtered : Option Bool
  filtered_by : Option String
  last_checked_in : Option String
  mirror_sources : String
deriving DecidableEq, Repr

/-- The `data_tuple` built for one server (HLTracker.py, lines 93-107);
`mirror_sources` is joined with `","`. -/
def serverRowOf (s : ServerEntry) : ServerRow :=
  ⟨s.unique_id, s.name, s.description, s.ip, s.port, s.user_count,
   s.server_type, s.filtered, s.filtered_by, s.last_checked_in,
   String.intercalate "," s.mirror_sources⟩

/-- `update_database` (HLTracker.py, lines 65-125), restricted to its effect
on the `hotline_servers` table: an empty `server_list` returns with the
table unchanged (lines 69-71); otherwise the table is truncated (line 79)
and, when the prepared tuple list is nonempty, all fetched rows are
inserted and committed (lines 111-114). -/
def update_database (server_list : List ServerEntry) (db : List ServerRow) :
    List ServerRow :=
  if server_list.isEmpty then db
  else
    let data_to_insert := server_list.map serverRowOf
    if data_to_insert.isEmpty then [] else [] ++ data_to_insert

/- ### HLUsers.py : insert_user_data -/

/-- One observed user record as assembled by
`retrieve_user_data_for_server` (HLUsers.py, lines 262-268). -/
structure UserObs where
  server_unique_id : String
  server_name : String
  user_name : String
  user_icon_id : Nat
deriving DecidableEq, Repr

/-- One row of the `hotline_users` table, in the column order of the
`INSERT` statement (HLUsers.py, lines 285-291); timestamps are abstract
`Nat`s. -/
structure UserRow where
  server_unique_id : String
  server_name : String
  user_name : String
  user_icon_id : Nat
  timestamp : Nat
deriving DecidableEq, Repr

/-- The unique key of `hotline_users`: `(server_unique_id, user_name)`
(spec §3, UserRecord invariant). -/
def rowKey (r : UserRow) : String × String := (r.server_unique_id, r.user_name)

/-- The key of an observation. -/
def obsKey (o : UserObs) : String × String := (o.server_unique_id, o.user_name)

/-- MySQL semantics of one row of the statement
`INSERT ... ON DUPLICATE KEY UPDATE user_icon_id=VALUES(user_icon_id),
timestamp=VALUES(timestamp)` (HLUsers.py, lines 285-291): on a key
conflict only `user_icon_id` and `timestamp` are updated, otherwise the
full row is inserted. -/
def upsertUser (db : List UserRow) (o : UserObs) (ts : Nat) : List UserRow :=
  if db.any (fun r => rowKey r == obsKey o) then
    db.map (fun r =>
      if rowKey r == obsKey o then
        { r with user_icon_id := o.user_icon_id, timestamp := ts }
      else r)
  else
    db ++ [⟨o.server_unique_id, o.server_name, o.user_name, o.user_icon_id, ts⟩]

/-- `insert_user_data` (HLUsers.py, lines 277-309), restricted to its effect
on the `hotline_users` table: an empty data list returns with the table
unchanged (lines 279-281); otherwise `executemany` applies the upsert to
every tuple in order, all with the same `current_timestamp`. -/
def insert_user_data (data : List UserObs) (ts : Nat) (db : List UserRow) :
    List UserRow :=
  if data.isEmpty then db
  else data.foldl (fun d o => upsertUser d o ts) db

/- ### Theorems about connect_and_login -/

/-- C1: evaluation at the failing inputs.  A `socket.timeout` raised while
reading the peer's handshake response — and even one raised during connect —
makes `connect_and_login` return `True` with the socket open, because the
single `except socket.timeout` handler covers every phase; the claim (and
spec §4.2) requires FAILED(timeout) for the connect and handshake-read
phases, reserving acceptance for the login-read timeout alone. -/
theorem handshake_timeout_reported_as_success :
    connect_and_login LoginNet.handshakeReadTimeout = ⟨true, true, false⟩ ∧
    connect_and_login LoginNet.connectTimeout = ⟨true, true, false⟩ ∧
    connect_and_login LoginNet.loginReadTimeout = ⟨true, true, false⟩ :=
  ⟨rfl, rfl, rfl⟩

/-- C3: evaluation at the failing inputs.  When `socket.connect` raises
(e.g. connection refused), and likewise for a non-timeout handshake-read
error or a login-send error, `connect_and_login` returns failure WITHOUT
closing the socket: the `except Exception` handler never calls
`disconnect`.  The claim requires the socket closed on every FAILED exit
path. -/
theorem failed_exit_leaves_socket_open :
    (connect_and_login LoginNet.connectError).ok = false ∧
    (connect_and_login LoginNet.connectError).socketClosed = false ∧
    (connect_and_login LoginNet.handshakeReadError).socketClosed = false ∧
    (connect_and_login LoginNet.loginSendError).socketClosed = false :=
  ⟨rfl, rfl, rfl, rfl⟩

/-- C5: a post-login read returning zero bytes (peer closed the connection
immediately after the login message) makes `connect_and_login` return
failure, with the socket closed by `disconnect` before returning. -/
theorem peer_close_after_login_is_rejected :
    connect_and_login (LoginNet.loginRead []) = ⟨false, false, true⟩ := rfl

/-- The login response used as counterexample for C2: its first four bytes
are the success status code and the result code at offset 16 is 5. -/
def successRespNonzero : List Nat :=
  [0, 0, 0, 1, 0, 0, 0, 0, 0, 0, 0, 0, 0, 0, 0, 0, 0, 0, 0, 5]

/-- C2 counterexample: a nonzero response whose first four bytes equal the
success status code is NOT classified accepted when the result code at
offset 16 is nonzero — `connect_and_login` returns `false` on it. -/
theorem success_code_with_nonzero_result_rejected :
    successRespNonzero ≠ [] ∧
    successRespNonzero.take 4 = SUCCESS_CODE ∧
    (connect_and_login (LoginNet.loginRead successRespNonzero)).ok = false := by
  decide

/-- C2 amended: for every nonzero login response whose first four bytes
equal the error status code OR the success status code, the 4-byte result
code at offset 16 (just past the 16-byte message header) decides the
outcome: a nonzero result code yields rejection (`false`, socket closed),
a zero result code yields acceptance (`true`). -/
theorem login_result_code_decides (resp : List Nat) (hne : resp ≠ [])
    (hcode : resp.take 4 = ERROR_CODE ∨ resp.take 4 = SUCCESS_CODE) :
    connect_and_login (LoginNet.loginRead resp) =
      if intFromBytesBE ((resp.drop 16).take 4) ≠ 0 then ⟨false, false, true⟩
      else ⟨true, true, false⟩ := by
  have h1 : ¬ resp.isEmpty = true := by simp [List.isEmpty_iff, hne]
  simp only [connect_and_login]
  rw [if_neg h1, if_pos hcode]

/-- Witness for the amended C2: the all-zero 20-byte response carries the
error status code and result code 0, and is accepted. -/
theorem login_result_code_decides_witness :
    List.replicate 20 0 ≠ ([] : List Nat) ∧
    ((List.replicate 20 (0 : Nat)).take 4 = ERROR_CODE ∨
      (List.replicate 20 (0 : Nat)).take 4 = SUCCESS_CODE) ∧
    connect_and_login (LoginNet.loginRead (List.replicate 20 0)) =
      ⟨true, true, false⟩ := by
  refine ⟨by decide, by decide, ?_⟩
  rw [login_result_code_decides (List.replicate 20 0) (by decide) (by decide)]
  decide

/- ### Theorems about get_user_list -/

/-- C4: evaluation at the failing input.  For host `127.0.0.2`, port
`5500`, `get_user_list` returns the same three synthetic users whether the
accumulated response buffer is empty or holds handshake-magic bytes: the
user list is produced from the hard-coded lookup table and generated names,
never from decoding the response payload. -/
theorem user_list_ignores_response_buffer :
    get_user_list "127.0.0.2" 5500 true [] (fun _ => 1) =
      get_user_list "127.0.0.2" 5500 true [0x54, 0x52, 0x54, 0x50] (fun _ => 1) ∧
    (get_user_list "127.0.0.2" 5500 true [] (fun _ => 1)).length = 3 := by
  constructor
  · rfl
  · decide

/- ### Theorems about update_database -/

/-- A previously persisted server row, used in the C8 counterexample. -/
def sampleServerRow : ServerRow :=
  ⟨some "old-id", some "Old Server", none, some "1.2.3.4", some 5500, some 3,
   some "HL", none, none, none, ""⟩

/-- C8 counterexample: fetching an EMPTY tracker directory leaves the
previously persisted rows in place (`update_database` returns before the
truncate), so the persisted table afterwards is not the fetched directory. -/
theorem empty_directory_not_replaced :
    update_database [] [sampleServerRow] = [sampleServerRow] ∧
    [sampleServerRow] ≠ List.map serverRowOf [] := by
  exact ⟨rfl, by decide⟩

/-- C8 amended: for every NONEMPTY fetched tracker directory,
`update_database` performs a full replace — all previously persisted rows
are deleted and the fetched entries inserted wholesale, so the table
afterwards is exactly the image of the fetched directory; an empty fetched
directory instead leaves the table unchanged. -/
theorem tracker_full_replace (server_list : List ServerEntry)
    (db : List ServerRow) (h : server_list ≠ []) :
    update_database server_list db = server_list.map serverRowOf := by
  have h1 : ¬ server_list.isEmpty = true := by simp [List.isEmpty_iff, h]
  have h2 : ¬ (server_list.map serverRowOf).isEmpty = true := by
    simp [List.isEmpty_iff, h]
  simp only [update_database]
  rw [if_neg h1, if_neg h2, List.nil_append]

/-- A fetched tracker entry, used in the C8 witness. -/
def sampleServerEntry : ServerEntry :=
  ⟨some "new-id", some "New Server", some "desc", some "5.6.7.8", some 5500,
   some 4, some "HL", some false, none, some "2025-01-01", ["m1", "m2"]⟩

/-- Witness for the amended C8: replacing one old row by one fetched entry. -/
theorem tracker_full_replace_witness :
    ([sampleServerEntry] : List ServerEntry) ≠ [] ∧
    update_database [sampleServerEntry] [sampleServerRow] =
      List.map serverRowOf [sampleServerEntry] :=
  ⟨by decide, tracker_full_replace [sampleServerEntry] [sampleServerRow] (by decide)⟩

/- ### Theorems about path standardization (C6) -/

/-- Shape facts about `standardizePaths`: the full path starts with `/`,
folders end with `/`, and the root source directory gives parent `/`. -/
theorem standardizePaths_props (path name : List Char) (is_folder : Bool) :
    (standardizePaths path name is_folder).1.head? = some '/' ∧
    (is_folder = true → (standardizePaths path name is_folder).1.getLast? = some '/') ∧
    (path = ['/'] → (standardizePaths path name is_folder).2 = ['/']) := by
  simp only [standardizePaths]
  split_ifs with h1 h2 h3 <;>
    refine ⟨?_, fun hf => ?_, fun hp => ?_⟩
  · simp
  · exact List.getLast?_concat _
  · rfl
  · simp
  · push_neg at h2
    exact h2 hf
  · rfl
  · simp
  · exact List.getLast?_concat _
  · exact absurd hp h1
  · simp
  · push_neg at h3
    exact h3 hf
  · exact absurd hp h1

/-- C6: every FileRecord produced by the indexing job's row builder (over
every source directory path and entry) satisfies: `full_path` starts with
`/`; if the entry's `is_folder` flag is set, `full_path` ends with `/`; and
entries whose source directory path is the root `/` have
`parent_path = "/"`. -/
theorem file_record_path_invariants (sid : String) (path : List Char)
    (e : FileEntry) :
    (mkFileRow sid path e).full_path.head? = some '/' ∧
    (e.is_folder = true → (mkFileRow sid path e).full_path.getLast? = some '/') ∧
    (path = ['/'] → (mkFileRow sid path e).parent_path = ['/']) :=
  standardizePaths_props path e.name e.is_folder

/-- Witness for C6: a folder named `d` listed under the root directory. -/
theorem file_record_path_invariants_witness :
    (mkFileRow "S" ['/'] ⟨['d'], none, true, none, none⟩).full_path.head? = some '/' ∧
    (mkFileRow "S" ['/'] ⟨['d'], none, true, none, none⟩).full_path.getLast? = some '/' ∧
    (mkFileRow "S" ['/'] ⟨['d'], none, true, none, none⟩).parent_path = ['/'] := by
  obtain ⟨a, b, c⟩ := file_record_path_invariants "S" ['/'] ⟨['d'], none, true, none, none⟩
  exact ⟨a, b rfl, c rfl⟩

/- ### Theorems about the skip list (C7) -/

/-- Every row generated for server `s` carries `server_id = s`. -/
theorem rowsForServer_server_id (s : String) (listing : Listing) :
    ∀ r ∈ rowsForServer s listing, r.server_id = s := by
  intro r hr
  simp only [rowsForServer, List.mem_flatMap, List.mem_map] at hr
  obtain ⟨pe, _, e, _, rfl⟩ := hr
  rfl

/-- Pushing a row of another server changes neither the rows of server
`sid` in the table nor the absence of `sid` rows in the pending batch. -/
theorem pushRow_frame (sid : String) (st : JobState) (r : FileRow)
    (hb : ∀ x ∈ st.batch, x.server_id ≠ sid) (hr : r.server_id ≠ sid) :
    (pushRow st r).db.filter (fun x => x.server_id == sid) =
      st.db.filter (fun x => x.server_id == sid) ∧
    ∀ x ∈ (pushRow st r).batch, x.server_id ≠ sid := by
  unfold pushRow
  dsimp only
  split_ifs with h
  · refine ⟨?_, by intro x hx; simp at hx⟩
    dsimp only
    rw [List.filter_append]
    have hnil : (st.batch ++ [r]).filter (fun x => x.server_id == sid) = [] := by
      rw [List.filter_eq_nil_iff]
      intro a ha
      rcases List.mem_append.mp ha with h1 | h1
      · simpa using hb a h1
      · simp only [List.mem_singleton] at h1
        subst h1
        simpa using hr
    rw [hnil, List.append_nil]
  · refine ⟨rfl, ?_⟩
    intro x hx
    rcases List.mem_append.mp hx with h1 | h1
    · exact hb x h1
    · simp only [List.mem_singleton] at h1
      subst h1
      exact hr


/-- Folding the batching step over rows of other servers changes neither
the rows of server `sid` in the table nor the batch invariant. -/
theorem foldl_pushRow_frame (sid : String) (rows : List FileRow) :
    ∀ st : JobState, (∀ x ∈ st.batch, x.server_id ≠ sid) →
      (∀ x ∈ rows, x.server_id ≠ sid) →
      (rows.foldl pushRow st).db.filter (fun x => x.server_id == sid) =
        st.db.filter (fun x => x.server_id == sid) ∧
      ∀ x ∈ (rows.foldl pushRow st).batch, x.server_id ≠ sid := by
  induction rows with
  | nil =>
      intro st hb _
      exact ⟨rfl, hb⟩
  | cons r rows ih =>
      intro st hb hrows
      have hr : r.server_id ≠ sid := hrows r (List.mem_cons_self r rows)
      have h1 := pushRow_frame sid st r hb hr
      have h2 := ih (pushRow st r) h1.2 (fun x hx => hrows x (List.mem_cons_of_mem r hx))
      rw [List.foldl_cons]
      exact ⟨h2.1.trans h1.1, h2.2⟩

/-- Deleting the rows of a different server `s` leaves the rows of `sid`
unchanged. -/
theorem filter_delete_other (s sid : String) (hne : s ≠ sid) (db : List FileRow) :
    (db.filter (fun r => !(r.server_id == s))).filter (fun r => r.server_id == sid) =
      db.filter (fun r => r.server_id == sid) := by
  induction db with
  | nil => rfl
  | cons a l ih =>
      have h1 : ¬ (sid = s) := fun h => hne h.symm
      by_cases ha : a.server_id = sid
      · have hs : ¬ a.server_id = s := by
          rw [ha]
          exact h1
        simp [List.filter_cons, ha, hs, h1, hne, ih]
      · by_cases hs : a.server_id = s <;>
          simp [List.filter_cons, ha, hs, h1, hne, ih]

/-- One iteration of the server loop, for a server other than the skipped
`sid`, preserves the rows of `sid` and the batch invariant. -/
theorem processServer_frame (skip : List String) (fetch : String → Option Listing)
    (sid : String) (hsid : sid ∈ skip) (st : JobState) (s : String)
    (hb : ∀ x ∈ st.batch, x.server_id ≠ sid) :
    (processServer skip fetch st s).db.filter (fun x => x.server_id == sid) =
      st.db.filter (fun x => x.server_id == sid) ∧
    ∀ x ∈ (processServer skip fetch st s).batch, x.server_id ≠ sid := by
  unfold processServer
  dsimp only
  split_ifs with h
  · exact ⟨rfl, hb⟩
  · have hne : s ≠ sid := fun he => h (he ▸ hsid)
    cases hf : fetch s with
    | none =>
        dsimp only
        exact ⟨filter_delete_other s sid hne st.db, hb⟩
    | some listing =>
        dsimp only
        have hrows : ∀ x ∈ rowsForServer s listing, x.server_id ≠ sid := by
          intro x hx
          rw [rowsForServer_server_id s listing x hx]
          exact hne
        have h2 := foldl_pushRow_frame sid (rowsForServer s listing)
          ⟨st.db.filter (fun r => !(r.server_id == s)), st.batch, st.commits⟩ hb hrows
        exact ⟨h2.1.trans (filter_delete_other s sid hne st.db), h2.2⟩

/-- C7: for every server whose unique id is in the skip list, one full
file-indexing cycle leaves that server's persisted rows (count and
content) unchanged: no delete and no insert touches them. -/
theorem skip_list_preserves_rows (skip : List String)
    (fetch : String → Option Listing) (servers : List String)
    (db : List FileRow) (sid : String) (h : sid ∈ skip) :
    (main_file_indexing_job skip fetch servers db).db.filter
        (fun r => r.server_id == sid) =
      db.filter (fun r => r.server_id == sid) := by
  have key : ∀ (ss : List String) (st : JobState),
      (∀ x ∈ st.batch, x.server_id ≠ sid) →
      (ss.foldl (processServer skip fetch) st).db.filter
          (fun r => r.server_id == sid) =
        st.db.filter (fun r => r.server_id == sid) ∧
      ∀ x ∈ (ss.foldl (processServer skip fetch) st).batch, x.server_id ≠ sid := by
    intro ss
    induction ss with
    | nil =>
        intro st hb
        exact ⟨rfl, hb⟩
    | cons s ss ih =>
        intro st hb
        have h1 := processServer_frame skip fetch sid h st s hb
        have h2 := ih (processServer skip fetch st s) h1.2
        rw [List.foldl_cons]
        exact ⟨h2.1.trans h1.1, h2.2⟩
  have hk := key servers ⟨db, [], []⟩ (by intro x hx; simp at hx)
  unfold main_file_indexing_job
  dsimp only
  split_ifs with hbe
  · exact hk.1
  · dsimp only
    rw [List.filter_append, hk.1]
    have hnil : (servers.foldl (processServer skip fetch) ⟨db, [], []⟩).batch.filter
        (fun r => r.server_id == sid) = [] := by
      rw [List.filter_eq_nil_iff]
      intro a ha
      simpa using hk.2 a ha
    rw [hnil, List.append_nil]

/-- A pre-existing row of the skipped server `A`, for the C7 witness. -/
def rowA : FileRow := ⟨"A", ['a'], ['/', 'a'], ['/'], none, false, none, none⟩

/-- The fetch behaviour for the C7 witness: server `B` lists one file under
the root, every other server yields no valid data. -/
def fetchW : String → Option Listing := fun s =>
  if s = "B" then some [(['/'], [⟨['b'], some 10, false, none, none⟩])] else none

/-- Witness for C7: with `A` in the skip list, a cycle over servers `A` and
`B` leaves `A`'s rows untouched. -/
theorem skip_list_preserves_rows_witness :
    "A" ∈ ["A"] ∧
    (main_file_indexing_job ["A"] fetchW ["A", "B"] [rowA]).db.filter
        (fun r => r.server_id == "A") =
      [rowA].filter (fun r => r.server_id == "A") :=
  ⟨by decide, skip_list_preserves_rows ["A"] fetchW ["A", "B"] [rowA] "A" (by decide)⟩

/- ### Theorems about chunked insertion (C9) -/

/-- Size-level simulation of the batching loop: the lengths of the insert
chunks committed while processing `n` pending rows with a current batch of
length `b`. -/
def batchSizesLoop : Nat → Nat → List Nat
  | 0, _ => []
  | n + 1, b =>
      if BATCH_SIZE ≤ b + 1 then (b + 1) :: batchSizesLoop n 0
      else batchSizesLoop n (b + 1)

/-- Size-level simulation of the batching loop: the batch length left over
after processing `n` pending rows with a current batch of length `b`. -/
def batchLeftover : Nat → Nat → Nat
  | 0, b => b
  | n + 1, b =>
      if BATCH_SIZE ≤ b + 1 then batchLeftover n 0
      else batchLeftover n (b + 1)

/-- Running the size loop through one full batch emits one chunk of
`BATCH_SIZE`. -/
theorem batchSizesLoop_fill (k : Nat) : ∀ n b, b + (k + 1) = BATCH_SIZE →
    batchSizesLoop (n + (k + 1)) b = BATCH_SIZE :: batchSizesLoop n 0 := by
  induction k with
  | zero =>
      intro n b hb
      have hc : BATCH_SIZE ≤ b + 1 := by omega
      simp only [batchSizesLoop, if_pos hc]
      have hb1 : b + 1 = BATCH_SIZE := by omega
      rw [hb1]
  | succ k ih =>
      intro n b hb
      have h1 : n + (k + 1 + 1) = (n + (k + 1)) + 1 := by omega
      have hc : ¬ BATCH_SIZE ≤ b + 1 := by
        unfold BATCH_SIZE at hb ⊢
        omega
      rw [h1]
      simp only [batchSizesLoop, if_neg hc]
      exact ih n (b + 1) (by omega)

/-- A run shorter than a full batch emits no chunk. -/
theorem batchSizesLoop_drain (n : Nat) : ∀ b, b + n < BATCH_SIZE →
    batchSizesLoop n b = [] := by
  induction n with
  | zero =>
      intro b _
      rfl
  | succ n ih =>
      intro b hb
      have hc : ¬ BATCH_SIZE ≤ b + 1 := by omega
      simp only [batchSizesLoop, if_neg hc]
      exact ih (b + 1) (by omega)

/-- Running the leftover loop through one full batch resets the batch. -/
theorem batchLeftover_fill (k : Nat) : ∀ n b, b + (k + 1) = BATCH_SIZE →
    batchLeftover (n + (k + 1)) b = batchLeftover n 0 := by
  induction k with
  | zero =>
      intro n b hb
      have hc : BATCH_SIZE ≤ b + 1 := by omega
      simp only [batchLeftover, if_pos hc]
  | succ k ih =>
      intro n b hb
      have h1 : n + (k + 1 + 1) = (n + (k + 1)) + 1 := by omega
      have hc : ¬ BATCH_SIZE ≤ b + 1 := by
        unfold BATCH_SIZE at hb ⊢
        omega
      rw [h1]
      simp only [batchLeftover, if_neg hc]
      exact ih n (b + 1) (by omega)

/-- A run shorter than a full batch only grows the batch. -/
theorem batchLeftover_drain (n : Nat) : ∀ b, b + n < BATCH_SIZE →
    batchLeftover n b = b + n := by
  induction n with
  | zero =>
      intro b _
      rfl
  | succ n ih =>
      intro b hb
      have hc : ¬ BATCH_SIZE ≤ b + 1 := by omega
      simp only [batchLeftover, if_neg hc]
      rw [ih (b + 1) (by omega)]
      omega

/-- Chunk sizes for 12,000 rows from an empty batch: two full batches. -/
theorem batchSizesLoop_12000 : batchSizesLoop 12000 0 = [5000, 5000] := by
  have h1 : (12000 : Nat) = 7000 + (4999 + 1) := by norm_num
  rw [h1, batchSizesLoop_fill 4999 7000 0 (by norm_num [BATCH_SIZE])]
  have h2 : (7000 : Nat) = 2000 + (4999 + 1) := by norm_num
  rw [h2, batchSizesLoop_fill 4999 2000 0 (by norm_num [BATCH_SIZE])]
  rw [batchSizesLoop_drain 2000 0 (by norm_num [BATCH_SIZE])]
  norm_num [BATCH_SIZE]

/-- Leftover batch length for 12,000 rows from an empty batch. -/
theorem batchLeftover_12000 : batchLeftover 12000 0 = 2000 := by
  have h1 : (12000 : Nat) = 7000 + (4999 + 1) := by norm_num
  rw [h1, batchLeftover_fill 4999 7000 0 (by norm_num [BATCH_SIZE])]
  have h2 : (7000 : Nat) = 2000 + (4999 + 1) := by norm_num
  rw [h2, batchLeftover_fill 4999 2000 0 (by norm_num [BATCH_SIZE])]
  rw [batchLeftover_drain 2000 0 (by norm_num [BATCH_SIZE])]

/-- The batching fold is simulated, at the level of chunk and batch sizes,
by the two size loops. -/
theorem foldl_pushRow_sizes (rows : List FileRow) :
    ∀ st : JobState,
      (rows.foldl pushRow st).commits.map List.length =
        st.commits.map List.length ++
          batchSizesLoop rows.length st.batch.length ∧
      (rows.foldl pushRow st).batch.length =
        batchLeftover rows.length st.batch.length := by
  induction rows with
  | nil =>
      intro st
      simp [batchSizesLoop, batchLeftover]
  | cons r rows ih =>
      intro st
      rw [List.foldl_cons]
      by_cases hc : BATCH_SIZE ≤ st.batch.length + 1
      · have hstep : pushRow st r =
            ⟨st.db ++ (st.batch ++ [r]), [], st.commits ++ [st.batch ++ [r]]⟩ := by
          unfold pushRow
          dsimp only
          rw [if_pos (by simpa using hc)]
        rw [hstep]
        obtain ⟨ih1, ih2⟩ :=
          ih ⟨st.db ++ (st.batch ++ [r]), [], st.commits ++ [st.batch ++ [r]]⟩
        constructor
        · rw [ih1]
          simp only [List.length_cons, batchSizesLoop, if_pos hc]
          simp [List.length_append]
        · rw [ih2]
          simp only [List.length_cons, batchLeftover, if_pos hc]
          rfl
      · have hstep : pushRow st r =
            ⟨st.db, st.batch ++ [r], st.commits⟩ := by
          unfold pushRow
          dsimp only
          rw [if_neg (by simpa using hc)]
        rw [hstep]
        obtain ⟨ih1, ih2⟩ := ih ⟨st.db, st.batch ++ [r], st.commits⟩
        constructor
        · rw [ih1]
          simp only [List.length_cons, batchSizesLoop, if_neg hc]
          simp [List.length_append]
        · rw [ih2]
          simp only [List.length_cons, batchLeftover, if_neg hc]
          simp [List.length_append]

/-- A representative fetched file entry for the C9 scenario. -/
def file12kEntry : FileEntry := ⟨['f'], some 1, false, none, none⟩

/-- The fetch behaviour for the C9 scenario: every server lists 12,000
entries under the root directory. -/
def fetch12k : String → Option Listing :=
  fun _ => some [(['/'], List.replicate 12000 file12kEntry)]

/-- Unfolding one cycle of the indexing job over a single, unskipped
server whose fetch succeeds. -/
theorem main_file_indexing_job_single (skip : List String)
    (fetch : String → Option Listing) (s : String) (db : List FileRow)
    (hs : s ∉ skip) (listing : Listing) (hf : fetch s = some listing) :
    main_file_indexing_job skip fetch [s] db =
      (if ((rowsForServer s listing).foldl pushRow
            ⟨db.filter (fun r => !(r.server_id == s)), [], []⟩).batch.isEmpty then
        (rowsForServer s listing).foldl pushRow
          ⟨db.filter (fun r => !(r.server_id == s)), [], []⟩
       else
        ⟨((rowsForServer s listing).foldl pushRow
            ⟨db.filter (fun r => !(r.server_id == s)), [], []⟩).db ++
          ((rowsForServer s listing).foldl pushRow
            ⟨db.filter (fun r => !(r.server_id == s)), [], []⟩).batch, [],
          ((rowsForServer s listing).foldl pushRow
            ⟨db.filter (fun r => !(r.server_id == s)), [], []⟩).commits ++
          [((rowsForServer s listing).foldl pushRow
            ⟨db.filter (fun r => !(r.server_id == s)), [], []⟩).batch]⟩) := by
  unfold main_file_indexing_job
  rw [List.foldl_cons, List.foldl_nil]
  unfold processServer
  rw [if_neg hs, hf]

/-- C9: a cycle inserting 12,000 fetched file entries for one server with
chunk size 5,000 commits exactly three chunks, of sizes 5,000, 5,000 and
2,000, each committed on its own. -/
theorem chunk_commit_sizes_12000 :
    (main_file_indexing_job [] fetch12k ["S"] []).commits.map List.length =
      [5000, 5000, 2000] := by
  rw [main_file_indexing_job_single [] fetch12k "S" [] (by simp)
    [(['/'], List.replicate 12000 file12kEntry)] rfl]
  have hlen : (rowsForServer "S" [(['/'], List.replicate 12000 file12kEntry)]).length
      = 12000 := by
    simp only [rowsForServer, List.flatMap_cons, List.flatMap_nil, List.append_nil,
      List.length_map, List.length_replicate]
  obtain ⟨h1, h2⟩ := foldl_pushRow_sizes
    (rowsForServer "S" [(['/'], List.replicate 12000 file12kEntry)])
    ⟨List.filter (fun r => !(r.server_id == "S")) [], [], []⟩
  dsimp only at h1 h2
  simp only [List.length_nil, List.map_nil, List.nil_append] at h1 h2
  rw [hlen] at h1 h2
  rw [batchLeftover_12000] at h2
  rw [batchSizesLoop_12000] at h1
  have hbe : ¬ (((rowsForServer "S"
      [(['/'], List.replicate 12000 file12kEntry)]).foldl pushRow
        ⟨List.filter (fun r => !(r.server_id == "S")) [], [], []⟩).batch.isEmpty
          = true) := by
    intro h
    rw [List.isEmpty_iff.mp h] at h2
    exact absurd h2 (by decide)
  rw [if_neg hbe]
  show (List.map List.length (_ ++ [_]) = _)
  rw [List.map_append, h1]
  simp only [List.map_cons, List.map_nil, h2]
  rfl

/- ### Theorems about the user upsert (C10) -/

/-- Number of persisted user rows carrying the key `k`. -/
def countKey (db : List UserRow) (k : String × String) : Nat :=
  (db.filter (fun r => rowKey r == k)).length

/-- Updating the rows matching the observed key leaves rows with any other
key untouched. -/
theorem filter_map_update (db : List UserRow) (o : UserObs) (ts : Nat) :
    (db.map (fun r => if rowKey r == obsKey o then
        { r with user_icon_id := o.user_icon_id, timestamp := ts } else r)).filter
      (fun r => !(rowKey r == obsKey o)) =
    db.filter (fun r => !(rowKey r == obsKey o)) := by
  have hupd : ∀ x : UserRow,
      rowKey { x with user_icon_id := o.user_icon_id, timestamp := ts } = rowKey x :=
    fun x => rfl
  induction db with
  | nil => rfl
  | cons a l ih =>
      by_cases ha : rowKey a = obsKey o <;>
        simp [List.filter_cons, hupd, ha] at ih ⊢ <;>
        try exact ih

/-- One upsert leaves the rows of every other key untouched. -/
theorem upsertUser_frame (db : List UserRow) (o : UserObs) (ts : Nat) :
    (upsertUser db o ts).filter (fun r => !(rowKey r == obsKey o)) =
      db.filter (fun r => !(rowKey r == obsKey o)) := by
  unfold upsertUser
  split_ifs with h
  · exact filter_map_update db o ts
  · rw [List.filter_append]
    have hnil : List.filter (fun r => !(rowKey r == obsKey o))
        [⟨o.server_unique_id, o.server_name, o.user_name, o.user_icon_id, ts⟩]
          = [] := by
      simp [rowKey, obsKey]
    rw [hnil, List.append_nil]

/-- After one upsert, every row carrying the observed key holds the
observed icon id and the given timestamp. -/
theorem upsertUser_values (db : List UserRow) (o : UserObs) (ts : Nat) :
    ∀ r ∈ upsertUser db o ts, rowKey r = obsKey o →
      r.user_icon_id = o.user_icon_id ∧ r.timestamp = ts := by
  unfold upsertUser
  split_ifs with h
  · intro r hr hkey
    simp only [List.mem_map] at hr
    obtain ⟨x, hx, rfl⟩ := hr
    by_cases hxk : rowKey x = obsKey o
    · simp [hxk]
    · rw [if_neg (by simpa using hxk)] at hkey ⊢
      exact absurd hkey hxk
  · intro r hr hkey
    rcases List.mem_append.mp hr with h1 | h1
    · have hall : ∀ x ∈ db, ¬ rowKey x = obsKey o := by simpa using h
      exact absurd hkey (hall r h1)
    · simp only [List.mem_singleton] at h1
      subst h1
      exact ⟨rfl, rfl⟩

/-- Updating the rows matching the observed key does not change how many
rows carry any key. -/
theorem countKey_map_update (db : List UserRow) (o : UserObs) (ts : Nat)
    (k : String × String) :
    countKey (db.map (fun r => if rowKey r == obsKey o then
      { r with user_icon_id := o.user_icon_id, timestamp := ts } else r)) k =
      countKey db k := by
  have hupd : ∀ x : UserRow,
      rowKey { x with user_icon_id := o.user_icon_id, timestamp := ts } = rowKey x :=
    fun x => rfl
  unfold countKey
  induction db with
  | nil => rfl
  | cons a l ih =>
      by_cases ha : rowKey a = obsKey o
      · by_cases hak : rowKey a = k
        · have hok : obsKey o = k := by
            rw [← ha]
            exact hak
          simp [List.filter_cons, hupd, ha, hak, hok] at ih ⊢
          try simp [ih]
        · have hok : ¬ (obsKey o = k) := by
            rw [← ha]
            exact hak
          simp [List.filter_cons, hupd, ha, hak, hok] at ih ⊢
          try simp [ih]
      · by_cases hak : rowKey a = k
        · have hko : ¬ (k = obsKey o) := by
            rw [← hak]
            exact ha
          simp [List.filter_cons, hupd, ha, hak, hko] at ih ⊢
          try simp [ih]
        · simp [List.filter_cons, hupd, ha, hak] at ih ⊢
          try simp [ih]

/-- One upsert of a key present at most once leaves exactly one row with
that key. -/
theorem countKey_upsert (db : List UserRow) (o : UserObs) (ts : Nat)
    (h : countKey db (obsKey o) ≤ 1) :
    countKey (upsertUser db o ts) (obsKey o) = 1 := by
  unfold upsertUser
  split_ifs with hany
  · rw [countKey_map_update]
    obtain ⟨x, hx, hxk⟩ := List.any_eq_true.mp hany
    have hmem : x ∈ db.filter (fun r => rowKey r == obsKey o) :=
      List.mem_filter.mpr ⟨hx, hxk⟩
    have h1 : 1 ≤ countKey db (obsKey o) := by
      unfold countKey
      exact List.length_pos.mpr (List.ne_nil_of_mem hmem)
    omega
  · unfold countKey
    rw [List.filter_append]
    have hall : ∀ x ∈ db, ¬ rowKey x = obsKey o := by simpa using hany
    have hz : db.filter (fun r => rowKey r == obsKey o) = [] := by
      rw [List.filter_eq_nil_iff]
      intro a ha2
      simpa using hall a ha2
    rw [hz, List.nil_append]
    simp [rowKey, obsKey]

/-- C10: applying the user upsert for two observations of the same
(server id, user name) key — first `o1` at timestamp `t1`, then `o2` at
timestamp `t2` — on a table holding at most one row for that key leaves
exactly one row for the key, carrying the most recently observed icon id
and timestamp; rows with any other key (users not observed) are left
exactly as they were, so no user row is ever deleted. -/
theorem user_upsert_latest_wins (db : List UserRow) (o1 o2 : UserObs)
    (t1 t2 : Nat) (hk : obsKey o1 = obsKey o2)
    (hcount : countKey db (obsKey o2) ≤ 1) :
    countKey (insert_user_data [o2] t2 (insert_user_data [o1] t1 db))
        (obsKey o2) = 1 ∧
    (∀ r ∈ insert_user_data [o2] t2 (insert_user_data [o1] t1 db),
      rowKey r = obsKey o2 →
        r.user_icon_id = o2.user_icon_id ∧ r.timestamp = t2) ∧
    (insert_user_data [o2] t2 (insert_user_data [o1] t1 db)).filter
        (fun r => !(rowKey r == obsKey o2)) =
      db.filter (fun r => !(rowKey r == obsKey o2)) := by
  have hsingle : ∀ (o : UserObs) (ts : Nat) (d : List UserRow),
      insert_user_data [o] ts d = upsertUser d o ts := fun o ts d => rfl
  rw [hsingle, hsingle]
  have c1 : countKey (upsertUser db o1 t1) (obsKey o2) = 1 := by
    rw [← hk] at hcount ⊢
    exact countKey_upsert db o1 t1 hcount
  refine ⟨countKey_upsert _ o2 t2 c1.le, upsertUser_values _ o2 t2, ?_⟩
  rw [upsertUser_frame]
  rw [← hk]
  exact upsertUser_frame db o1 t1

/-- Witness for C10: the user `alice` on server `S` observed with icon 5 at
time 1 and icon 7 at time 2 ends up as one row with icon 7 and time 2. -/
theorem user_upsert_latest_wins_witness :
    obsKey ⟨"S", "N", "alice", 5⟩ = obsKey ⟨"S", "N", "alice", 7⟩ ∧
    countKey [] (obsKey ⟨"S", "N", "alice", 7⟩) ≤ 1 ∧
    countKey (insert_user_data [⟨"S", "N", "alice", 7⟩] 2
        (insert_user_data [⟨"S", "N", "alice", 5⟩] 1 []))
      (obsKey ⟨"S", "N", "alice", 7⟩) = 1 := by
  refine ⟨rfl, by decide, ?_⟩
  exact (user_upsert_latest_wins [] ⟨"S", "N", "alice", 5⟩ ⟨"S", "N", "alice", 7⟩
    1 2 rfl (by decide)).1
